import Mathlib

/-!
Shallow embedding of `src/registry/registry.go` (package registry).

The package orchestrates a container-registry client:
`GetRepository` acquires a `Remote` from a factory, lists tags, fans out
one goroutine per tag fetching that tag's manifest through a buffered
channel of capacity `len(tags)`, gathers results in arrival order, sorts
the surviving images with the `byCreatedDesc` comparator, and releases
the `Remote` (via `defer remote.Cancel()` in `tagsToRepository`, or an
explicit `rem.Cancel()` on the tag-list error path).  `GetImage` acquires
a `Remote` and fetches a single manifest, with no `Cancel` call.

Modelling choices:
- Errors are an arbitrary type `ε`; Go's `error` values propagate
  unchanged, which the embedding states as equality in `ε`.
- `time.Time` creation stamps become `Option Int` (`nil` pointer = `none`);
  `Equal` becomes `=` and `After` becomes `>` on `Int`.
- The nondeterministic channel-arrival order of the fan-out is an explicit
  `arrival : List Tag` parameter, constrained in theorems to be a
  permutation of the dispatched tag list.  Each dispatched goroutine
  issues exactly one `Manifest` call and then sends into the buffered
  channel, so the multiset of results received is the multiset of
  per-tag manifest results.
- Side effects on the `Remote` are tallied in an `Effects` record:
  number of `Tags` calls, number of `Manifest` calls issued by dispatched
  goroutines, and number of `Cancel` calls.
- `NewInstrumentedRemote` only emits metrics and is behaviourally
  transparent, so `newRemote` models it as the identity wrapper.
-/

namespace Flux

/-- A tag is a plain string label within a repository. -/
abbrev Tag := String

/-- Modelled from the spec: a `Repository` (defined outside `src/`)
identifies a registry host, namespace (org) and name; `Host()` projects
the host used by the factory. -/
structure Repository where
  host : String
  org : String
  name : String
deriving DecidableEq, Repr

/-- Modelled from the spec: an `Image` (defined outside `src/`) carries an
optional creation timestamp (`CreatedAt *time.Time`, `nil` = `none`) and a
human-readable full name (its `String()` method). -/
structure Image where
  createdAt : Option Int
  fullName : String
deriving DecidableEq, Repr

/-- Behaviour of a `Remote` capability: `Tags` lists a repository's tags,
`Manifest` fetches one tag's manifest.  `Cancel` has no modelled return
value; its invocations are counted in `Effects`. -/
structure Remote (ε : Type) where
  tags : Repository → Except ε (List Tag)
  manifest : Repository → Tag → Except ε Image

/-- Tally of calls made against the `Remote` during one API call. -/
structure Effects where
  tagListCalls : Nat
  manifestCalls : Nat
  cancelCalls : Nat
deriving DecidableEq, Repr

/-- A `RemoteClientFactory`: `CreateFor(host)` yields a `Remote` or an
error. -/
abbrev Factory (ε : Type) := String → Except ε (Remote ε)

/-- Embeds `registry.newRemote`: ask the factory for a client for the
repository's host; on success wrap it with `NewInstrumentedRemote`,
which is behaviourally transparent (metrics only), hence the identity
here. -/
def newRemote (factory : Factory ε) (img : Repository) : Except ε (Remote ε) :=
  match factory img.host with
  | .error e => .error e
  | .ok rem => .ok rem

/-- Embeds the gather loop of `tagsToRepository` (`for i := 0; i <
cap(fetched); i++ { res := <-fetched; if res.err != nil { return nil,
res.err }; images[i] = res.image }`) run against the channel contents in
arrival order.  Returns the loop's outcome together with the number of
channel receives performed before the loop returned. -/
def gatherRun : List (Except ε Image) → Except ε (List Image) × Nat
  | [] => (.ok [], 0)
  | .error e :: _ => (.error e, 1)
  | .ok img :: rs =>
      let p := gatherRun rs
      (Except.map (fun l => img :: l) p.1, p.2 + 1)

/-- First error in the arrival-ordered result sequence: the error the
gather loop returns, when any fetch failed. -/
def firstError : List (Except ε Image) → Option ε
  | [] => none
  | .error e :: _ => some e
  | .ok _ :: rs => firstError rs

/-- Whether an `Except` result is a success. -/
def exceptOk : Except ε α → Bool
  | .ok _ => true
  | .error _ => false

/-- Embeds `byCreatedDesc.Less` (with `i`, `j` replaced by the two images
compared): a `nil` `CreatedAt` on the left yields `true`; a `nil` on the
right (left non-nil) yields `false`; equal stamps compare `String()`
ascending; otherwise `After` (strictly later sorts first). -/
def less (a b : Image) : Bool :=
  match a.createdAt with
  | none => true
  | some ta =>
      match b.createdAt with
      | none => false
      | some tb =>
          if ta = tb then decide (a.fullName < b.fullName)
          else decide (tb < ta)

/-- Embeds `sort.Sort(byCreatedDesc(images))`: sorting with the `less`
comparator (the embedding fixes insertion sort; the Go sort is
unspecified up to permutation, which is all the theorems below use). -/
def sortByCreatedDesc (l : List Image) : List Image :=
  List.insertionSort (fun a b => less a b = true) l

/-- Embeds `registry.tagsToRepository`: dispatch one `Manifest` call per
tag (all dispatched goroutines issue their call and send into the
buffered channel regardless of the gather loop's fate), gather in
`arrival` order, sort on success.  `defer remote.Cancel()` fires on every
return path, so `cancelCalls = 1`. -/
def tagsToRepository (rem : Remote ε) (repository : Repository)
    (tags arrival : List Tag) : Except ε (List Image) × Effects :=
  let results := arrival.map (rem.manifest repository)
  let gathered := (gatherRun results).1
  (match gathered with
   | .error e => .error e
   | .ok imgs => .ok (sortByCreatedDesc imgs),
   ⟨0, tags.length, 1⟩)

/-- Embeds `registry.GetRepository`: acquire a `Remote`, list tags
(`rem.Cancel()` then return on error), then `tagsToRepository`. -/
def GetRepository (factory : Factory ε) (img : Repository)
    (arrival : List Tag) : Except ε (List Image) × Effects :=
  match newRemote factory img with
  | .error e => (.error e, ⟨0, 0, 0⟩)
  | .ok rem =>
      match rem.tags img with
      | .error e => (.error e, ⟨1, 0, 1⟩)
      | .ok tags =>
          let p := tagsToRepository rem img tags arrival
          (p.1, ⟨p.2.tagListCalls + 1, p.2.manifestCalls, p.2.cancelCalls⟩)

/-- Embeds `registry.GetImage`: acquire a `Remote` and fetch the single
manifest; no `Cancel` on any path. -/
def GetImage (factory : Factory ε) (img : Repository) (tag : Tag) :
    Except ε Image × Effects :=
  match newRemote factory img with
  | .error e => (.error e, ⟨0, 0, 0⟩)
  | .ok rem => (rem.manifest img tag, ⟨0, 1, 0⟩)

/-! Helper lemmas about the gather loop. -/

/-- When every result in the arrival sequence is a success described by
`imgOf`, the gather loop succeeds with the images in arrival order and
performs one receive per result. -/
theorem gatherRun_all_ok (imgOf : Tag → Image) :
    ∀ l : List Tag,
      gatherRun (l.map fun t => (Except.ok (imgOf t) : Except ε Image)) =
        (Except.ok (l.map imgOf), l.length) := by
  intro l
  induction l with
  | nil => rfl
  | cons t ts ih => simp [gatherRun, ih, Except.map]

/-- When the arrival sequence holds an error, the gather loop returns the
first one, after one receive per preceding success plus the receive of
the error itself. -/
theorem gatherRun_first_error (l : List (Except ε Image)) (e : ε)
    (h : firstError l = some e) :
    (gatherRun l).1 = Except.error e ∧
      (gatherRun l).2 = (l.takeWhile fun r => exceptOk r).length + 1 := by
  induction l with
  | nil => simp [firstError] at h
  | cons r rs ih =>
      cases r with
      | error e1 =>
          simp [firstError] at h
          subst h
          simp [gatherRun, List.takeWhile, exceptOk]
      | ok img =>
          simp [firstError] at h
          obtain ⟨h1, h2⟩ := ih h
          simp [gatherRun, List.takeWhile, exceptOk, h1, h2, Except.map]

/-- The gather loop never performs more receives than there are
dispatched fetches. -/
theorem gatherRun_consumed_le (l : List (Except ε Image)) :
    (gatherRun l).2 ≤ l.length := by
  induction l with
  | nil => simp [gatherRun]
  | cons r rs ih =>
      cases r with
      | error e => simp [gatherRun]
      | ok img => simpa [gatherRun] using ih

/-- A success-only arrival sequence has no first error. -/
theorem firstError_all_ok (imgOf : Tag → Image) (l : List Tag) :
    firstError (l.map fun t => (Except.ok (imgOf t) : Except ε Image)) =
      none := by
  induction l with
  | nil => rfl
  | cons t ts ih => simpa [firstError] using ih

/-! Concrete fixtures used by witnesses and the counterexample. -/

/-- A concrete repository value. -/
def cxRepo : Repository := ⟨"quay.io", "foo", "helloworld"⟩

/-- A concrete resolved image. -/
def cxImage : Image := ⟨some 3, "quay.io/foo/helloworld:v2"⟩

/-- A concrete remote with two tags whose `v1` manifest fetch fails with
error `7` and whose `v2` fetch succeeds. -/
def cxRem : Remote Nat where
  tags := fun _ => .ok ["v1", "v2"]
  manifest := fun _ t => if t = "v1" then .error 7 else .ok cxImage

/-- A factory that always yields `cxRem`. -/
def cxFactory : Factory Nat := fun _ => .ok cxRem

/-- A concrete remote whose tag listing fails with error `3`. -/
def cxRemTagsErr : Remote Nat where
  tags := fun _ => .error 3
  manifest := fun _ _ => .ok cxImage

/-- A factory that always yields `cxRemTagsErr`. -/
def cxFactoryTagsErr : Factory Nat := fun _ => .ok cxRemTagsErr

/-- A concrete remote with an empty tag list. -/
def cxRemEmpty : Remote Nat where
  tags := fun _ => .ok []
  manifest := fun _ _ => .ok cxImage

/-- A factory that always yields `cxRemEmpty`. -/
def cxFactoryEmpty : Factory Nat := fun _ => .ok cxRemEmpty

/-- A concrete remote where every manifest fetch succeeds. -/
def cxRemOk : Remote Nat where
  tags := fun _ => .ok ["v1", "v2"]
  manifest := fun _ t => .ok ⟨some 1, t⟩

/-- A factory that always yields `cxRemOk`. -/
def cxFactoryOk : Factory Nat := fun _ => .ok cxRemOk

/-- A factory that fails with error `5` for every host. -/
def cxFactoryErr : Factory Nat := fun _ => .error 5

/-! Claim theorems. -/

/-- C5: the `byCreatedDesc.Less` comparator orders a timestamp-less image
before anything; an image with a timestamp after one without; equal
timestamps fall back to ascending full-name order; otherwise the later
timestamp comes first. -/
theorem byCreatedDesc_less_cases (A B : Image) :
    (A.createdAt = none → less A B = true) ∧
    (∀ ta, A.createdAt = some ta → B.createdAt = none →
      less A B = false ∧ less B A = true) ∧
    (∀ ta tb, A.createdAt = some ta → B.createdAt = some tb →
      (ta = tb → (less A B = true ↔ A.fullName < B.fullName)) ∧
      (ta ≠ tb → (less A B = true ↔ tb < ta))) := by
  refine ⟨fun hA => by simp [less, hA], fun ta hA hB => by simp [less, hA, hB],
    fun ta tb hA hB => ⟨fun heq => by simp [less, hA, hB, heq],
      fun hne => by simp [less, hA, hB, hne]⟩⟩

/-- Witness for C5 at concrete images: a timestamp-less image on the
left sorts first, a timestamped image against a timestamp-less one does
not, equal timestamps compare names, different timestamps compare
recency. -/
theorem byCreatedDesc_less_cases_witness :
    less ⟨none, "a"⟩ ⟨some 5, "b"⟩ = true ∧
    less ⟨some 5, "b"⟩ ⟨none, "a"⟩ = false ∧
    (less ⟨some 5, "a"⟩ ⟨some 5, "b"⟩ = true ↔
      ("a" : String) < "b") ∧
    (less ⟨some 9, "a"⟩ ⟨some 5, "b"⟩ = true ↔ (5 : Int) < 9) := by
  refine ⟨(byCreatedDesc_less_cases _ _).1 rfl,
    ((byCreatedDesc_less_cases ⟨some 5, "b"⟩ ⟨none, "a"⟩).2.1 5 rfl rfl).1,
    ((byCreatedDesc_less_cases _ _).2.2 5 5 rfl rfl).1 rfl,
    ((byCreatedDesc_less_cases _ _).2.2 9 5 rfl rfl).2 (by decide)⟩

/-- C6: for two images that both lack a creation timestamp the comparator
answers `true` in both directions, so it is not asymmetric and hence not
a strict total order. -/
theorem byCreatedDesc_less_not_asymmetric (A B : Image)
    (hA : A.createdAt = none) (hB : B.createdAt = none) :
    less A B = true ∧ less B A = true := by
  exact ⟨by simp [less, hA], by simp [less, hB]⟩

/-- Witness for C6 at two concrete timestamp-less images. -/
theorem byCreatedDesc_less_not_asymmetric_witness :
    less ⟨none, "x"⟩ ⟨none, "y"⟩ = true ∧
    less ⟨none, "y"⟩ ⟨none, "x"⟩ = true :=
  byCreatedDesc_less_not_asymmetric ⟨none, "x"⟩ ⟨none, "y"⟩ rfl rfl

/-- C2: whenever the factory yields a Remote, `GetRepository` invokes
`Cancel` exactly once, on every exit path — success, tag-list error, or
any manifest-fetch error (the `rem.Cancel()` on the tag-list error path,
the `defer remote.Cancel()` otherwise). -/
theorem getRepository_cancels_once (factory : Factory ε) (img : Repository)
    (arrival : List Tag) (rem : Remote ε)
    (hfac : factory img.host = Except.ok rem) :
    (GetRepository factory img arrival).2.cancelCalls = 1 := by
  simp only [GetRepository, newRemote, hfac]
  cases htags : rem.tags img with
  | error e => rfl
  | ok tags => rfl

/-- Witness for C2: a run with a failing manifest fetch still cancels
exactly once. -/
theorem getRepository_cancels_once_witness :
    (GetRepository cxFactory cxRepo ["v1", "v2"]).2.cancelCalls = 1 :=
  getRepository_cancels_once cxFactory cxRepo ["v1", "v2"] cxRem rfl

/-- C7: when the tag listing fails, `GetRepository` returns that very
error, issues zero manifest fetches, and has released the Remote
(exactly one `Cancel`) before returning. -/
theorem getRepository_taglist_error (factory : Factory ε) (img : Repository)
    (arrival : List Tag) (rem : Remote ε) (e : ε)
    (hfac : factory img.host = Except.ok rem)
    (htags : rem.tags img = Except.error e) :
    GetRepository factory img arrival = (Except.error e, ⟨1, 0, 1⟩) := by
  simp only [GetRepository, newRemote, hfac, htags]

/-- Witness for C7 on a concrete remote whose tag listing fails. -/
theorem getRepository_taglist_error_witness :
    GetRepository cxFactoryTagsErr cxRepo [] =
      (Except.error 3, ⟨1, 0, 1⟩) :=
  getRepository_taglist_error cxFactoryTagsErr cxRepo [] cxRemTagsErr 3 rfl rfl

/-- C8: when the factory fails, both `GetRepository` and `GetImage`
return the factory's error unchanged and issue no tag-list, manifest or
cancel calls. -/
theorem factory_error_propagated (factory : Factory ε) (img : Repository)
    (tag : Tag) (arrival : List Tag) (e : ε)
    (hfac : factory img.host = Except.error e) :
    GetRepository factory img arrival = (Except.error e, ⟨0, 0, 0⟩) ∧
      GetImage factory img tag = (Except.error e, ⟨0, 0, 0⟩) := by
  constructor
  · simp only [GetRepository, newRemote, hfac]
  · simp only [GetImage, newRemote, hfac]

/-- Witness for C8 on a factory failing with error `5`. -/
theorem factory_error_propagated_witness :
    GetRepository cxFactoryErr cxRepo ["v1"] = (Except.error 5, ⟨0, 0, 0⟩) ∧
      GetImage cxFactoryErr cxRepo "v1" = (Except.error 5, ⟨0, 0, 0⟩) :=
  factory_error_propagated cxFactoryErr cxRepo "v1" ["v1"] 5 rfl

/-- C9: when `GetImage` successfully acquires a Remote it never invokes
`Cancel`, on the success path and on the manifest-error path alike: the
single-image lookup leaves the acquired Remote unreleased. -/
theorem getImage_never_cancels (factory : Factory ε) (img : Repository)
    (tag : Tag) (rem : Remote ε)
    (hfac : factory img.host = Except.ok rem) :
    GetImage factory img tag = (rem.manifest img tag, ⟨0, 1, 0⟩) ∧
      (GetImage factory img tag).2.cancelCalls = 0 := by
  simp [GetImage, newRemote, hfac]

/-- Witness for C9: a concrete lookup (whose manifest fetch fails, the
path where release would matter most) performs zero cancels. -/
theorem getImage_never_cancels_witness :
    GetImage cxFactory cxRepo "v1" = (Except.error 7, ⟨0, 1, 0⟩) ∧
      (GetImage cxFactory cxRepo "v1").2.cancelCalls = 0 :=
  getImage_never_cancels cxFactory cxRepo "v1" cxRem rfl

/-- C10: when the tag listing succeeds with an empty tag sequence,
`GetRepository` succeeds with an empty image list, issues zero manifest
fetches and exactly one `Cancel`. -/
theorem getRepository_empty_tags (factory : Factory ε) (img : Repository)
    (arrival : List Tag) (rem : Remote ε)
    (hfac : factory img.host = Except.ok rem)
    (htags : rem.tags img = Except.ok [])
    (hperm : arrival.Perm []) :
    GetRepository factory img arrival = (Except.ok [], ⟨1, 0, 1⟩) := by
  have harr : arrival = [] := List.Perm.eq_nil hperm
  subst harr
  simp only [GetRepository, newRemote, hfac, htags]
  rfl

/-- Witness for C10 on a concrete remote listing no tags. -/
theorem getRepository_empty_tags_witness :
    GetRepository cxFactoryEmpty cxRepo [] = (Except.ok [], ⟨1, 0, 1⟩) :=
  getRepository_empty_tags cxFactoryEmpty cxRepo [] cxRemEmpty rfl rfl
    (List.Perm.refl [])

/-- C4: when every manifest fetch succeeds, `GetRepository` returns
exactly one image per tag — a permutation of the per-tag fetch results,
of length `tags.length` — and the dispatched goroutines issue exactly
one manifest fetch per tag. -/
theorem getRepository_all_ok (factory : Factory ε) (img : Repository)
    (tags arrival : List Tag) (rem : Remote ε) (imgOf : Tag → Image)
    (hfac : factory img.host = Except.ok rem)
    (htags : rem.tags img = Except.ok tags)
    (hperm : arrival.Perm tags)
    (hman : ∀ t ∈ tags, rem.manifest img t = Except.ok (imgOf t)) :
    ∃ imgs, (GetRepository factory img arrival).1 = Except.ok imgs ∧
      imgs.Perm (tags.map imgOf) ∧ imgs.length = tags.length ∧
      (GetRepository factory img arrival).2.manifestCalls = tags.length := by
  have hmap : arrival.map (rem.manifest img) =
      arrival.map fun t => (Except.ok (imgOf t) : Except ε Image) :=
    List.map_congr_left fun t ht => hman t (hperm.mem_iff.mp ht)
  have hsortperm : (sortByCreatedDesc (arrival.map imgOf)).Perm (tags.map imgOf) :=
    (List.perm_insertionSort _ _).trans (hperm.map imgOf)
  refine ⟨sortByCreatedDesc (arrival.map imgOf), ?_, hsortperm, ?_, ?_⟩
  · simp only [GetRepository, newRemote, hfac, htags, tagsToRepository, hmap,
      gatherRun_all_ok]
  · simpa [hperm.length_eq] using hsortperm.length_eq
  · simp only [GetRepository, newRemote, hfac, htags]
    rfl

/-- Witness for C4 on a remote with two tags whose fetches both
succeed. -/
theorem getRepository_all_ok_witness :
    ∃ imgs, (GetRepository cxFactoryOk cxRepo ["v1", "v2"]).1 = Except.ok imgs ∧
      imgs.Perm ((["v1", "v2"] : List Tag).map fun t => (⟨some 1, t⟩ : Image)) ∧
      imgs.length = (["v1", "v2"] : List Tag).length ∧
      (GetRepository cxFactoryOk cxRepo ["v1", "v2"]).2.manifestCalls =
        (["v1", "v2"] : List Tag).length :=
  getRepository_all_ok cxFactoryOk cxRepo ["v1", "v2"] ["v1", "v2"] cxRemOk
    (fun t => ⟨some 1, t⟩) rfl rfl (List.Perm.refl _) (fun t _ => rfl)

/-- C3: when any manifest fetch fails, `GetRepository` returns the first
error in channel-arrival order (not necessarily the first tag
dispatched) and returns no image list — successes gathered before the
error are discarded. -/
theorem getRepository_manifest_error (factory : Factory ε) (img : Repository)
    (tags arrival : List Tag) (rem : Remote ε) (e : ε)
    (hfac : factory img.host = Except.ok rem)
    (htags : rem.tags img = Except.ok tags)
    (hperm : arrival.Perm tags)
    (herr : firstError (arrival.map (rem.manifest img)) = some e) :
    (GetRepository factory img arrival).1 = Except.error e ∧
      ∀ imgs, (GetRepository factory img arrival).1 ≠ Except.ok imgs := by
  have h := gatherRun_first_error (arrival.map (rem.manifest img)) e herr
  constructor
  · simp only [GetRepository, newRemote, hfac, htags, tagsToRepository, h.1]
  · intro imgs
    simp only [GetRepository, newRemote, hfac, htags, tagsToRepository, h.1]
    exact fun hcon => Except.noConfusion hcon

/-- Witness for C3: the `v2` result arrives first and succeeds, the
failing `v1` result arrives second, and its error `7` (the first error
observed during gather, dispatched first but arriving second) is
returned. -/
theorem getRepository_manifest_error_witness :
    (GetRepository cxFactory cxRepo ["v2", "v1"]).1 = Except.error 7 ∧
      ∀ imgs, (GetRepository cxFactory cxRepo ["v2", "v1"]).1 ≠
        Except.ok imgs :=
  getRepository_manifest_error cxFactory cxRepo ["v1", "v2"] ["v2", "v1"]
    cxRem 7 rfl rfl (List.Perm.swap "v1" "v2" []) rfl

/-- C1, counterexample: a run of `GetRepository` on two tags whose first
arrival is an error.  The claim says the gather loop consumes a result
from every one of the `len(tags)` dispatched fetches before returning;
here a fetch fails, the run returns its error, yet the loop performed
only `1` of the `2` receives before returning — so the Remote is
released (by the deferred `Cancel` at that return) while one dispatched
fetch has not been consumed. -/
theorem gather_early_return_counterexample :
    (GetRepository cxFactory cxRepo ["v1", "v2"]).1 = Except.error 7 ∧
      firstError ((["v1", "v2"] : List Tag).map (cxRem.manifest cxRepo)) =
        some 7 ∧
      (gatherRun ((["v1", "v2"] : List Tag).map (cxRem.manifest cxRepo))).2 = 1 ∧
      (gatherRun ((["v1", "v2"] : List Tag).map (cxRem.manifest cxRepo))).2 ≠
        (["v1", "v2"] : List Tag).length := by
  exact ⟨rfl, rfl, rfl, by decide⟩

/-- C1, amended: when a manifest fetch fails, the gather loop consumes
results only up to and including the first error in arrival order (one
receive per preceding success plus one for the error) — at most, and
possibly fewer than, `len(tags)` — before returning that error; the
Remote is nevertheless still released exactly once at that return. -/
theorem gather_stops_at_first_error (factory : Factory ε) (img : Repository)
    (tags arrival : List Tag) (rem : Remote ε) (e : ε)
    (hfac : factory img.host = Except.ok rem)
    (htags : rem.tags img = Except.ok tags)
    (hperm : arrival.Perm tags)
    (herr : firstError (arrival.map (rem.manifest img)) = some e) :
    (GetRepository factory img arrival).1 = Except.error e ∧
      (GetRepository factory img arrival).2.cancelCalls = 1 ∧
      (gatherRun (arrival.map (rem.manifest img))).2 =
        ((arrival.map (rem.manifest img)).takeWhile
          fun r => exceptOk r).length + 1 ∧
      (gatherRun (arrival.map (rem.manifest img))).2 ≤ tags.length := by
  have h := gatherRun_first_error (arrival.map (rem.manifest img)) e herr
  refine ⟨?_, ?_, h.2, ?_⟩
  · simp only [GetRepository, newRemote, hfac, htags, tagsToRepository, h.1]
  · simp only [GetRepository, newRemote, hfac, htags]
    rfl
  · calc (gatherRun (arrival.map (rem.manifest img))).2
        ≤ (arrival.map (rem.manifest img)).length :=
          gatherRun_consumed_le _
      _ = tags.length := by simp [hperm.length_eq]

/-- Witness for the amended C1 on the concrete failing run: the error is
returned, exactly one `Cancel` happens, and only `0 + 1 = 1` of the two
dispatched results is consumed. -/
theorem gather_stops_at_first_error_witness :
    (GetRepository cxFactory cxRepo ["v1", "v2"]).1 = Except.error 7 ∧
      (GetRepository cxFactory cxRepo ["v1", "v2"]).2.cancelCalls = 1 ∧
      (gatherRun ((["v1", "v2"] : List Tag).map (cxRem.manifest cxRepo))).2 =
        (((["v1", "v2"] : List Tag).map (cxRem.manifest cxRepo)).takeWhile
          fun r => exceptOk r).length + 1 ∧
      (gatherRun ((["v1", "v2"] : List Tag).map (cxRem.manifest cxRepo))).2 ≤
        (["v1", "v2"] : List Tag).length :=
  gather_stops_at_first_error cxFactory cxRepo ["v1", "v2"] ["v1", "v2"]
    cxRem 7 rfl rfl (List.Perm.refl _) rfl

end Flux
